import Mathlib

set_option maxRecDepth 8000

/-! Verification development for the pddetect voice-preprocessing pipeline
(the `preprocessing.py` module embedded in `kaggle-notebook.ipynb`).

Matrices (numpy 2-D arrays) are embedded as lists of rows.  Machine floats
are idealised as rationals in the functions that only compare, rescale and
copy values (`resize_for_cnn`, `spec_augment`), and as reals in the functions
that take logarithms or square roots (`create_mel_spectrogram`,
`load_and_preprocess_audio`).  The process-wide numpy random generator is
made explicit: a function that draws random integers receives a list of
pseudo-random seeds and reduces each into the requested range; an empty
range (`np.random.randint(0, hi)` with `hi ≤ 0`) raises, which is embedded
as `none`.  External library calls (`cv2.resize`, `cv2.applyColorMap`,
`librosa.feature.rms`, `librosa.effects.trim`, `librosa.util.normalize`,
`librosa.power_to_db`) are modelled by executable definitions that follow
their documented behaviour; each such model carries a doc comment naming
the call it stands for. -/

namespace PDDetect

/-- `arr.shape[1]` of a row-major rectangular matrix: length of the first
row (0 for an empty matrix). -/
def cols {α : Type*} (m : List (List α)) : ℕ := (m.headD []).length

/-- `np.min` over all entries of a rational matrix (defaulting to 0 on an
empty matrix, which numpy itself would reject). -/
def matMin (m : List (List ℚ)) : ℚ := (m.flatten.min?).getD 0

/-- `np.max` over all entries of a rational matrix (defaulting to 0 on an
empty matrix). -/
def matMax (m : List (List ℚ)) : ℚ := (m.flatten.max?).getD 0

/-- Model of `np.random.randint(0, hi)`: raises (`none`) when the requested
range is empty (`hi ≤ 0`); otherwise returns the supplied pseudo-random
draw `d` reduced into `[0, hi)`. -/
def randint (hi : ℤ) (d : ℕ) : Option ℕ :=
  if hi ≤ 0 then none else some (d % hi.toNat)

/-- Slice assignment `spec[a:b, :] = v`: overwrite every entry of each row
`a ≤ i < b` with `v`. -/
def maskRows (a b : ℕ) (v : ℚ) (m : List (List ℚ)) : List (List ℚ) :=
  m.mapIdx (fun i r => if a ≤ i ∧ i < b then r.map (fun _ => v) else r)

/-- Slice assignment `spec[:, a:b] = v`: overwrite every entry of each
column `a ≤ j < b` with `v`. -/
def maskCols (a b : ℕ) (v : ℚ) (m : List (List ℚ)) : List (List ℚ) :=
  m.map (fun r => r.mapIdx (fun j x => if a ≤ j ∧ j < b then v else x))

/-- The frequency-masking loop of `spec_augment`: `n` iterations of
`f = np.random.randint(0, freq_mask_param)`,
`f0 = np.random.randint(0, spec.shape[0] - f)`,
`spec[f0:f0 + f, :] = np.min(spec)`.  Draws are consumed two per
iteration from the seed list `ds`; a draw on an empty range aborts with
`none` (the `ValueError` numpy raises). -/
def applyFreqMasks : ℕ → ℕ → List (List ℚ) → List ℕ → Option (List (List ℚ) × List ℕ)
  | 0, _, m, ds => some (m, ds)
  | n + 1, fmp, m, ds =>
    match randint (fmp : ℤ) (ds.getD 0 0) with
    | none => none
    | some f =>
      match randint ((m.length : ℤ) - (f : ℤ)) (ds.getD 1 0) with
      | none => none
      | some f0 => applyFreqMasks n fmp (maskRows f0 (f0 + f) (matMin m) m) (ds.drop 2)

/-- The time-masking loop of `spec_augment`: `n` iterations of
`t = np.random.randint(0, time_mask_param)`,
`t0 = np.random.randint(0, spec.shape[1] - t)`,
`spec[:, t0:t0 + t] = np.min(spec)`. -/
def applyTimeMasks : ℕ → ℕ → List (List ℚ) → List ℕ → Option (List (List ℚ) × List ℕ)
  | 0, _, m, ds => some (m, ds)
  | n + 1, tmp, m, ds =>
    match randint (tmp : ℤ) (ds.getD 0 0) with
    | none => none
    | some t =>
      match randint ((cols m : ℤ) - (t : ℤ)) (ds.getD 1 0) with
      | none => none
      | some t0 => applyTimeMasks n tmp (maskCols t0 (t0 + t) (matMin m) m) (ds.drop 2)

/-- `spec_augment(spec, freq_mask_param, time_mask_param, num_masks)`:
copies the matrix (value semantics make the `spec.copy()` implicit), applies
`num_masks` frequency masks then `num_masks` time masks, each filled with
the current matrix minimum, and returns the masked matrix.  `ds` is the
stream of pseudo-random draws; `none` embeds an uncaught numpy
`ValueError` from an empty `randint` range. -/
def spec_augment (m : List (List ℚ)) (freq_mask_param time_mask_param num_masks : ℕ)
    (ds : List ℕ) : Option (List (List ℚ)) :=
  match applyFreqMasks num_masks freq_mask_param m ds with
  | none => none
  | some (m1, ds1) =>
    match applyTimeMasks num_masks time_mask_param m1 ds1 with
    | none => none
    | some (m2, _) => some m2

/-- Clamp an integer into the byte range `[0, 255]`. -/
def clamp255 (x : ℤ) : ℕ := (min (max x 0) 255).toNat

/-- Modelled from `cv2.applyColorMap(img, cv2.COLORMAP_JET)`: the fixed
"jet" palette mapping an 8-bit intensity to a BGR triple, embedded as the
standard clamped triangular ramps (exact OpenCV table values abstracted;
all channels clamped to `[0, 255]`). -/
def jetBGR (v : ℕ) : ℕ × ℕ × ℕ :=
  (clamp255 (382 - |4 * (v : ℤ) - 255|),
   clamp255 (382 - |4 * (v : ℤ) - 510|),
   clamp255 (382 - |4 * (v : ℤ) - 765|))

/-- `cv2.cvtColor(img, cv2.COLOR_BGR2RGB)` on one pixel: swap the first and
third channels. -/
def bgr2rgb (p : ℕ × ℕ × ℕ) : ℕ × ℕ × ℕ := (p.2.2, p.2.1, p.1)

/-- Modelled from `cv2.resize(src, (dW, dH), interpolation=INTER_LINear)`
on a single-channel image: produces a `dH × dW` matrix whose pixel `(i, j)`
samples the source at the proportionally scaled index (bilinear
interpolation abstracted to index sampling, which preserves the shape
contract and keeps every output value an input value; `d` is the sampling
default on an empty source, which cv2 itself would reject). -/
def cv2resize {α : Type*} (dW dH : ℕ) (d : α) (m : List (List α)) : List (List α) :=
  (List.range dH).map (fun i =>
    (List.range dW).map (fun j =>
      (m.getD (i * m.length / dH) []).getD (j * cols m / dW) d))

/-- `resize_for_cnn(spec, target_size)`: square the matrix when its width
differs from its height (`n_mels`) by more than 20%, min-max normalise to
`[0, 1)` with an epsilon-guarded denominator, quantise to `uint8`
(truncation, reduced mod 256 as in a `uint8` cast), resize to the target
size unless the target already equals `(n_mels, n_mels)`, apply the jet
colormap and convert BGR to RGB. -/
def resize_for_cnn (spec : List (List ℚ)) (tH tW : ℕ) : List (List (ℕ × ℕ × ℕ)) :=
  let n_mels := spec.length
  let square_spec :=
    if |(cols spec : ℚ) - (n_mels : ℚ)| / (n_mels : ℚ) > 1/5 then
      cv2resize n_mels n_mels 0 spec
    else spec
  let spec_min := matMin square_spec
  let spec_max := matMax square_spec
  let spec_img := square_spec.map (List.map (fun x =>
    (Int.toNat ⌊(x - spec_min) / (spec_max - spec_min + 1/10000000000) * 255⌋) % 256))
  let spec_img_resized :=
    if (tH, tW) ≠ (n_mels, n_mels) then cv2resize tW tH 0 spec_img else spec_img
  (spec_img_resized.map (List.map jetBGR)).map (List.map bgr2rgb)

/-- Concrete input refuting the universal shape claim for
`resize_for_cnn`: 224 rows and 200 columns.  Width differs from height by
less than 20%, so the squaring step is skipped, and the target size equals
`(n_mels, n_mels)`, so the final resize is skipped too — the matrix passes
through with its original 200-column width. -/
def cexWideMatrix : List (List ℚ) := List.replicate 224 (List.replicate 200 0)

/-- The waveform transforms `get_audio_augmenter` may place in its
`audiomentations.Compose` chain.  The two gain constructors record the two
keyword spellings the source tries (`min_gain_in_db` vs the older
`min_gain_db`). -/
inductive ATransform : Type
  | addGaussianNoise (minAmplitude maxAmplitude p : ℚ)
  | timeStretch (minRate maxRate p : ℚ)
  | pitchShift (minSemitones maxSemitones p : ℚ)
  | gainNewApi (minGainInDb maxGainInDb p : ℚ)
  | gainOldApi (minGainDb maxGainDb p : ℚ)
deriving DecidableEq, Repr

/-- Which `audiomentations` constructor calls the installed library version
accepts.  A `false` field means that constructor call raises `TypeError`
(the only exception class the source catches). -/
structure AudioEnv : Type where
  noiseOk : Bool
  stretchOk : Bool
  pitchOk : Bool
  gainNewOk : Bool
  gainOldOk : Bool
deriving DecidableEq, Repr

/-- `audiomentations.AddGaussianNoise(min_amplitude=0.001, max_amplitude=0.015, p=0.5)`. -/
def mkNoise (env : AudioEnv) : Except Unit ATransform :=
  if env.noiseOk then .ok (.addGaussianNoise (1/1000) (15/1000) (1/2)) else .error ()

/-- `audiomentations.TimeStretch(min_rate=0.8, max_rate=1.2, p=0.5)`. -/
def mkStretch (env : AudioEnv) : Except Unit ATransform :=
  if env.stretchOk then .ok (.timeStretch (4/5) (6/5) (1/2)) else .error ()

/-- `audiomentations.PitchShift(min_semitones=-4, max_semitones=4, p=0.5)`. -/
def mkPitch (env : AudioEnv) : Except Unit ATransform :=
  if env.pitchOk then .ok (.pitchShift (-4) 4 (1/2)) else .error ()

/-- `audiomentations.Gain(min_gain_in_db=-6, max_gain_in_db=6, p=0.5)` (newer API). -/
def mkGainNew (env : AudioEnv) : Except Unit ATransform :=
  if env.gainNewOk then .ok (.gainNewApi (-6) 6 (1/2)) else .error ()

/-- `audiomentations.Gain(min_gain_db=-6, max_gain_db=6, p=0.5)` (older API). -/
def mkGainOld (env : AudioEnv) : Except Unit ATransform :=
  if env.gainOldOk then .ok (.gainOldApi (-6) 6 (1/2)) else .error ()

/-- The first `audiomentations.Compose([...])` attempt of
`get_audio_augmenter` (newer gain API): evaluates the four constructor
calls in order; any `TypeError` escapes as `.error`. -/
def composeAttemptNew (env : AudioEnv) : Except Unit (List ATransform) := do
  let n ← mkNoise env
  let s ← mkStretch env
  let p ← mkPitch env
  let g ← mkGainNew env
  pure [n, s, p, g]

/-- The second `audiomentations.Compose([...])` attempt (older
`min_gain_db` keyword). -/
def composeAttemptOld (env : AudioEnv) : Except Unit (List ATransform) := do
  let n ← mkNoise env
  let s ← mkStretch env
  let p ← mkPitch env
  let g ← mkGainOld env
  pure [n, s, p, g]

/-- The final, unguarded `audiomentations.Compose([...])` fallback: only
Gaussian noise and time-stretch. -/
def composeAttemptMinimal (env : AudioEnv) : Except Unit (List ATransform) := do
  let n ← mkNoise env
  let s ← mkStretch env
  pure [n, s]

/-- `get_audio_augmenter()`: try the newer-API chain; on `TypeError` fall
back to the older gain keyword; on `TypeError` again fall back to the
minimal noise + time-stretch chain, whose own constructor calls are NOT
wrapped in a `try`, so their `TypeError` propagates to the caller. -/
def get_audio_augmenter (env : AudioEnv) : Except Unit (List ATransform) :=
  match composeAttemptNew env with
  | .ok l => .ok l
  | .error _ =>
    match composeAttemptOld env with
    | .ok l => .ok l
    | .error _ => composeAttemptMinimal env

open Classical

/-- `np.max` over a list of reals (0 on an empty list, which numpy would
reject). -/
noncomputable def listMaxR (l : List ℝ) : ℝ := (l.max?).getD 0

/-- `np.max` over all entries of a real matrix. -/
noncomputable def matMaxR (m : List (List ℝ)) : ℝ := listMaxR m.flatten

/-- One entry of `librosa.power_to_db(S, ref)` before top-db clipping,
with the library default `amin = 1e-10`:
`10*log10(max(amin, p)) - 10*log10(max(amin, ref))`. -/
noncomputable def dbOf (ref p : ℝ) : ℝ :=
  10 * Real.logb 10 (max (1/10000000000) p) -
    10 * Real.logb 10 (max (1/10000000000) ref)

/-- `librosa.power_to_db(S, ref=np.max)` with the library defaults
`amin = 1e-10` and `top_db = 80`: pointwise `dbOf` against the matrix's
own maximum power, then clipping every value at 80 dB below the resulting
maximum. -/
noncomputable def power_to_db (S : List (List ℝ)) : List (List ℝ) :=
  let L := S.map (List.map (dbOf (matMaxR S)))
  L.map (List.map (fun d => max d (matMaxR L - 80)))

/-- Per-column linear energy of a decibel matrix,
`spec_energy = np.sum(np.power(10, mel_spec_db/10), axis=0) + eps` with
`eps = 1e-10`, at column `j`. -/
noncomputable def specEnergy (m : List (List ℝ)) (j : ℕ) : ℝ :=
  (m.map (fun r => (10 : ℝ) ^ (r.getD j 0 / 10))).sum + 1/10000000000

/-- Columns whose energy exceeds 1% of the maximum column energy
(`np.where(spec_energy > 0.01 * np.max(spec_energy))[0]`, in increasing
order). -/
noncomputable def activeSpecCols (m : List (List ℝ)) : List ℕ :=
  (List.range (cols m)).filter (fun j =>
    decide (specEnergy m j >
      (1/100) * listMaxR ((List.range (cols m)).map (specEnergy m))))

/-- The trailing-silence crop inside `create_mel_spectrogram`: if some
column is active, keep columns `0 .. min(last_active + 5, width - 1)`
(5 columns of padding, clamped to the matrix width); otherwise return the
matrix unchanged. -/
noncomputable def specCrop (m : List (List ℝ)) : List (List ℝ) :=
  match (activeSpecCols m).getLast? with
  | none => m
  | some last => m.map (List.take (min (last + 5) (cols m - 1) + 1))

/-- `create_mel_spectrogram(audio)` downstream of the external
`librosa.feature.melspectrogram` call: that library call is modelled by
taking its output — a matrix of non-negative mel-band powers, shape
`n_mels × time_frames` — as the input here; the repository's own logic
then converts power to decibels relative to the clip's peak power and
crops trailing low-energy columns. -/
noncomputable def create_mel_spectrogram (mel_spec : List (List ℝ)) : List (List ℝ) :=
  specCrop (power_to_db mel_spec)

/-- Concrete mel-power matrix (1001 mel bands × 7 frames) refuting the
claim that the spectrogram maximum is exactly 0 dB after the trailing
crop: frame 0 carries broadband power 1 in every band, frames 1-5 are
silent, and frame 6 carries the clip's peak power 10 in a single band.
Frame 6 holds the only 0 dB cell, yet its linear energy (≈ 1) stays below
1% of frame 0's energy (≈ 100.1), so the crop keeps only frames 0-5 and
removes the 0 dB cell. -/
noncomputable def cexPowerMatrix : List (List ℝ) :=
  [(1 : ℝ), 0, 0, 0, 0, 0, 10] :: List.replicate 1000 [(1 : ℝ), 0, 0, 0, 0, 0, 0]

/-- The decibel matrix of `cexPowerMatrix` before top-db clipping:
power 1 → −10 dB, power 0 → −110 dB, power 10 (the peak) → 0 dB. -/
noncomputable def cexDbUnclipped : List (List ℝ) :=
  [(-10 : ℝ), -110, -110, -110, -110, -110, 0] ::
    List.replicate 1000 [(-10 : ℝ), -110, -110, -110, -110, -110, -110]

/-- The decibel matrix of `cexPowerMatrix` after the 80 dB clip. -/
noncomputable def cexDbMatrix : List (List ℝ) :=
  [(-10 : ℝ), -80, -80, -80, -80, -80, 0] ::
    List.replicate 1000 [(-10 : ℝ), -80, -80, -80, -80, -80, -80]

/-- The spectrogram of `cexPowerMatrix` after the trailing crop: columns
0-5 only, so the single 0 dB cell (column 6) is gone. -/
noncomputable def cexCroppedMatrix : List (List ℝ) :=
  [(-10 : ℝ), -80, -80, -80, -80, -80] ::
    List.replicate 1000 [(-10 : ℝ), -80, -80, -80, -80, -80]

/-- Modelled from `librosa.feature.rms(y, frame_length, hop_length)` at
frame `f`: root-mean-square of samples `[f*hop, f*hop + frame_length)`
(librosa's frame centering abstracted; samples beyond the signal end count
as the zero padding librosa applies). -/
noncomputable def frameRms (fl hop : ℕ) (y : List ℝ) (f : ℕ) : ℝ :=
  Real.sqrt ((((y.drop (f * hop)).take fl).map (fun s => s ^ 2)).sum / (fl : ℝ))

/-- The RMS energy envelope over all `len(y) // hop + 1` frames. -/
noncomputable def energyEnvelope (fl hop : ℕ) (y : List ℝ) : List ℝ :=
  (List.range (y.length / hop + 1)).map (frameRms fl hop y)

/-- Frames whose RMS energy exceeds 3% of the maximum frame energy
(`np.where(energy > 0.03 * np.max(energy))[0]`, in increasing order), at
the source's fixed frame length 1024 and hop 512. -/
noncomputable def activeFrames (y : List ℝ) : List ℕ :=
  (List.range (y.length / 512 + 1)).filter (fun f =>
    decide (frameRms 1024 512 y f >
      (3/100) * listMaxR (energyEnvelope 1024 512 y)))

/-- The energy-based active-region crop inside `load_and_preprocess_audio`
(frame length 1024, hop 512): if any frame is active, slice the waveform
from `start = max(0, first_active * 512 - 1024)` to
`end = min(len(y), (last_active + 1) * 512 + 1024)` (Python `y[start:end]`;
natural-number subtraction realises the clamp at 0); otherwise leave the
waveform unchanged. -/
noncomputable def energyCrop (y : List ℝ) : List ℝ :=
  match (activeFrames y).head?, (activeFrames y).getLast? with
  | some first, some last =>
    (y.take (min y.length ((last + 1) * 512 + 1024))).drop (first * 512 - 1024)
  | _, _ => y

/-- Modelled from `librosa.effects.trim(y, top_db=35)`: drop leading and
trailing samples whose amplitude lies more than 35 dB below the clip's
peak amplitude (librosa's frame-wise decision abstracted to per-sample
amplitude). -/
noncomputable def trimSilence (y : List ℝ) : List ℝ :=
  let thr := listMaxR (y.map (fun s => |s|)) * (10 : ℝ) ^ (-(35 : ℝ) / 20)
  ((y.dropWhile (fun s => decide (|s| < thr))).reverse.dropWhile
    (fun s => decide (|s| < thr))).reverse

/-- Modelled from `librosa.util.normalize(y)`: divide by the peak absolute
amplitude so the maximum absolute sample becomes 1; a silent signal
(zero peak) is returned unchanged. -/
noncomputable def librosaNormalize (y : List ℝ) : List ℝ :=
  let peak := listMaxR (y.map (fun s => |s|))
  if peak > 0 then y.map (fun s => s / peak) else y

/-- `load_and_preprocess_audio(file_path)`: the outcome of the external
`librosa.load` call is the input (`.error` when the read or decode raised,
`.ok y` with the decoded waveform otherwise).  A load exception is caught,
logged and turned into `None`; a loaded waveform is silence-trimmed,
energy-cropped and peak-normalised. -/
noncomputable def load_and_preprocess_audio (r : Except String (List ℝ)) :
    Option (List ℝ) :=
  match r with
  | .error _ => none
  | .ok y => some (librosaNormalize (energyCrop (trimSilence y)))

/-! Helper lemmas. -/

/-- Characterisation of `List.min?` over a linear order. -/
theorem min?_eq_some_iff_lin {α : Type*} [LinearOrder α] {a : α} {xs : List α} :
    xs.min? = some a ↔ a ∈ xs ∧ ∀ b ∈ xs, a ≤ b :=
  @List.min?_eq_some_iff α a _ _ ⟨fun h h' => le_antisymm h h'⟩
    (fun _ => le_refl _) (fun _ _ => min_choice _ _) (fun _ _ _ => le_min_iff) xs

/-- Characterisation of `List.max?` over a linear order. -/
theorem max?_eq_some_iff_lin {α : Type*} [LinearOrder α] {a : α} {xs : List α} :
    xs.max? = some a ↔ a ∈ xs ∧ ∀ b ∈ xs, b ≤ a :=
  @List.max?_eq_some_iff α a _ _ ⟨fun h h' => le_antisymm h h'⟩
    (fun _ => le_refl _) (fun _ _ => max_choice _ _) (fun _ _ _ => max_le_iff) xs

/-- Shorthand for the `randint` success case. -/
theorem randint_pos {hi : ℤ} (d : ℕ) (h : 0 < hi) :
    randint hi d = some (d % hi.toNat) := by
  unfold randint
  rw [if_neg (not_le.mpr h)]

/-- Shorthand for the `randint` failure (empty-range) case. -/
theorem randint_nonpos {hi : ℤ} (d : ℕ) (h : hi ≤ 0) : randint hi d = none := by
  unfold randint
  rw [if_pos h]

/-- Row masking does not change the number of rows. -/
theorem length_maskRows (a b : ℕ) (v : ℚ) (m : List (List ℚ)) :
    (maskRows a b v m).length = m.length := by
  simp [maskRows]

/-- Row masking does not change any row length. -/
theorem rowLengths_maskRows (a b : ℕ) (v : ℚ) (m : List (List ℚ)) :
    (maskRows a b v m).map List.length = m.map List.length := by
  apply List.ext_getElem
  · simp [maskRows]
  · intro i h1 h2
    simp only [List.getElem_map, maskRows, List.getElem_mapIdx]
    split <;> simp

/-- Row masking does not change the column count. -/
theorem cols_maskRows (a b : ℕ) (v : ℚ) (m : List (List ℚ)) :
    cols (maskRows a b v m) = cols m := by
  cases m with
  | nil => rfl
  | cons r t =>
    simp only [maskRows, List.mapIdx_cons, cols, List.headD_cons]
    split <;> simp

/-- Column masking does not change the number of rows. -/
theorem length_maskCols (a b : ℕ) (v : ℚ) (m : List (List ℚ)) :
    (maskCols a b v m).length = m.length := by
  simp [maskCols]

/-- Column masking does not change any row length. -/
theorem rowLengths_maskCols (a b : ℕ) (v : ℚ) (m : List (List ℚ)) :
    (maskCols a b v m).map List.length = m.map List.length := by
  simp [maskCols, List.map_map, Function.comp]

/-- Column masking does not change the column count. -/
theorem cols_maskCols (a b : ℕ) (v : ℚ) (m : List (List ℚ)) :
    cols (maskCols a b v m) = cols m := by
  cases m with
  | nil => rfl
  | cons r t => simp [maskCols, cols]

/-- Every entry of a row-masked matrix is the mask value or an original
entry. -/
theorem mem_flatten_maskRows {x v : ℚ} {a b : ℕ} {m : List (List ℚ)}
    (hx : x ∈ (maskRows a b v m).flatten) : x = v ∨ x ∈ m.flatten := by
  rw [List.mem_flatten] at hx
  obtain ⟨r, hr, hxr⟩ := hx
  rw [List.mem_iff_getElem] at hr
  obtain ⟨i, hi, hir⟩ := hr
  simp only [maskRows, List.getElem_mapIdx] at hir
  have him : i < m.length := by
    have := hi
    simpa [maskRows] using this
  by_cases hc : a ≤ i ∧ i < b
  · rw [if_pos hc] at hir
    left
    rw [← hir] at hxr
    simp at hxr
    exact hxr.2
  · rw [if_neg hc] at hir
    right
    rw [List.mem_flatten]
    exact ⟨r, by rw [← hir]; exact List.getElem_mem _, hxr⟩

/-- The mask value stays present in a row-masked matrix whenever it occurs
in the original. -/
theorem mem_flatten_maskRows_self {v : ℚ} {a b : ℕ} {m : List (List ℚ)}
    (hv : v ∈ m.flatten) : v ∈ (maskRows a b v m).flatten := by
  rw [List.mem_flatten] at hv ⊢
  obtain ⟨r, hr, hvr⟩ := hv
  rw [List.mem_iff_getElem] at hr
  obtain ⟨i, hi, hir⟩ := hr
  have hi' : i < (maskRows a b v m).length := by
    rw [length_maskRows]; exact hi
  refine ⟨(maskRows a b v m)[i], List.getElem_mem _, ?_⟩
  simp only [maskRows, List.getElem_mapIdx]
  by_cases hc : a ≤ i ∧ i < b
  · rw [if_pos hc]
    rw [hir]
    rcases r with _ | ⟨y, t⟩
    · simp at hvr
    · simp
  · rw [if_neg hc]
    rw [hir]; exact hvr

/-- Every entry of a column-masked matrix is the mask value or an original
entry. -/
theorem mem_flatten_maskCols {x v : ℚ} {a b : ℕ} {m : List (List ℚ)}
    (hx : x ∈ (maskCols a b v m).flatten) : x = v ∨ x ∈ m.flatten := by
  rw [List.mem_flatten] at hx
  obtain ⟨r', hr', hxr⟩ := hx
  rw [maskCols, List.mem_map] at hr'
  obtain ⟨r, hr, hrr⟩ := hr'
  rw [← hrr, List.mem_iff_getElem] at hxr
  obtain ⟨j, hj, hjx⟩ := hxr
  have hjr : j < r.length := by simpa using hj
  rw [List.getElem_mapIdx] at hjx
  by_cases hc : a ≤ j ∧ j < b
  · rw [if_pos hc] at hjx
    left; exact hjx.symm
  · rw [if_neg hc] at hjx
    right
    rw [List.mem_flatten]
    exact ⟨r, hr, by rw [← hjx]; exact List.getElem_mem _⟩

/-- The mask value stays present in a column-masked matrix whenever it
occurs in the original. -/
theorem mem_flatten_maskCols_self {v : ℚ} {a b : ℕ} {m : List (List ℚ)}
    (hv : v ∈ m.flatten) : v ∈ (maskCols a b v m).flatten := by
  rw [List.mem_flatten] at hv ⊢
  obtain ⟨r, hr, hvr⟩ := hv
  rw [List.mem_iff_getElem] at hvr
  obtain ⟨j, hj, hjv⟩ := hvr
  refine ⟨r.mapIdx (fun j x => if a ≤ j ∧ j < b then v else x), ?_, ?_⟩
  · rw [maskCols, List.mem_map]
    exact ⟨r, hr, rfl⟩
  · have hj' : j < (r.mapIdx (fun j x => if a ≤ j ∧ j < b then v else x)).length := by
      simpa using hj
    rw [List.mem_iff_getElem]
    refine ⟨j, hj', ?_⟩
    rw [List.getElem_mapIdx]
    by_cases hc : a ≤ j ∧ j < b
    · rw [if_pos hc]
    · rw [if_neg hc]; exact hjv

/-- Masking rows with the matrix minimum preserves the matrix minimum. -/
theorem matMin_maskRows (a b : ℕ) (m : List (List ℚ)) :
    matMin (maskRows a b (matMin m) m) = matMin m := by
  rcases hf : m.flatten.min? with _ | v
  · have hfe : m.flatten = [] := List.min?_eq_none_iff.mp hf
    have hrows := List.flatten_eq_nil_iff.mp hfe
    have h : (maskRows a b (matMin m) m).flatten = [] := by
      rw [List.flatten_eq_nil_iff]
      intro l hl
      rw [List.mem_iff_getElem] at hl
      obtain ⟨i, hi, hil⟩ := hl
      have him : i < m.length := by simpa [maskRows] using hi
      simp only [maskRows, List.getElem_mapIdx] at hil
      have hmi : m[i] = [] := hrows _ (List.getElem_mem _)
      rw [← hil]
      split <;> simp [hmi]
    rw [matMin, h, matMin, hfe]
  · have hv : matMin m = v := by rw [matMin, hf]; rfl
    rw [min?_eq_some_iff_lin] at hf
    have hpres : v ∈ (maskRows a b (matMin m) m).flatten := by
      rw [hv]; exact mem_flatten_maskRows_self hf.1
    have hub : ∀ x ∈ (maskRows a b (matMin m) m).flatten, v ≤ x := by
      intro x hx
      rcases mem_flatten_maskRows hx with h | h
      · rw [h, hv]
      · exact hf.2 x h
    rw [matMin, min?_eq_some_iff_lin.mpr ⟨hpres, hub⟩]
    simp [hv]

/-- Masking columns with the matrix minimum preserves the matrix minimum. -/
theorem matMin_maskCols (a b : ℕ) (m : List (List ℚ)) :
    matMin (maskCols a b (matMin m) m) = matMin m := by
  rcases hf : m.flatten.min? with _ | v
  · rw [List.min?_eq_none_iff] at hf
    have h : (maskCols a b (matMin m) m).flatten = [] := by
      rw [List.flatten_eq_nil_iff] at hf ⊢
      intro l hl
      rw [maskCols, List.mem_map] at hl
      obtain ⟨r, hr, hrl⟩ := hl
      have : r = [] := hf _ hr
      rw [← hrl, this]
      rfl
    rw [matMin, h, matMin, hf]
  · have hv : matMin m = v := by rw [matMin, hf]; rfl
    rw [min?_eq_some_iff_lin] at hf
    have hpres : v ∈ (maskCols a b (matMin m) m).flatten := by
      rw [hv]; exact mem_flatten_maskCols_self hf.1
    have hub : ∀ x ∈ (maskCols a b (matMin m) m).flatten, v ≤ x := by
      intro x hx
      rcases mem_flatten_maskCols hx with h | h
      · rw [h, hv]
      · exact hf.2 x h
    rw [matMin, min?_eq_some_iff_lin.mpr ⟨hpres, hub⟩]
    simp [hv]

/-- Invariants of a successful frequency-mask pass: row lengths, column
count and matrix minimum are preserved, and two random draws are consumed
per mask. -/
theorem applyFreqMasks_some_inv (n fmp : ℕ) :
    ∀ (m : List (List ℚ)) (ds : List ℕ) (m' : List (List ℚ)) (ds' : List ℕ),
      applyFreqMasks n fmp m ds = some (m', ds') →
      m'.map List.length = m.map List.length ∧ cols m' = cols m ∧
        matMin m' = matMin m ∧ ds' = ds.drop (2 * n) := by
  induction n with
  | zero =>
    intro m ds m' ds' h
    simp only [applyFreqMasks, Option.some_inj, Prod.mk.injEq] at h
    obtain ⟨h1, h2⟩ := h
    subst h1; subst h2
    simp
  | succ k ih =>
    intro m ds m' ds' h
    simp only [applyFreqMasks] at h
    split at h
    · exact Option.noConfusion h
    · split at h
      · exact Option.noConfusion h
      · rename_i f hf f0 hf0
        obtain ⟨ha, hb, hc, hd⟩ := ih _ _ _ _ h
        refine ⟨?_, ?_, ?_, ?_⟩
        · rw [ha, rowLengths_maskRows]
        · rw [hb, cols_maskRows]
        · rw [hc, matMin_maskRows]
        · rw [hd, List.drop_drop]
          congr 1
          ring

/-- Invariants of a successful time-mask pass. -/
theorem applyTimeMasks_some_inv (n tmp : ℕ) :
    ∀ (m : List (List ℚ)) (ds : List ℕ) (m' : List (List ℚ)) (ds' : List ℕ),
      applyTimeMasks n tmp m ds = some (m', ds') →
      m'.map List.length = m.map List.length ∧ cols m' = cols m ∧
        matMin m' = matMin m ∧ ds' = ds.drop (2 * n) := by
  induction n with
  | zero =>
    intro m ds m' ds' h
    simp only [applyTimeMasks, Option.some_inj, Prod.mk.injEq] at h
    obtain ⟨h1, h2⟩ := h
    subst h1; subst h2
    simp
  | succ k ih =>
    intro m ds m' ds' h
    simp only [applyTimeMasks] at h
    split at h
    · exact Option.noConfusion h
    · split at h
      · exact Option.noConfusion h
      · rename_i t ht t0 ht0
        obtain ⟨ha, hb, hc, hd⟩ := ih _ _ _ _ h
        refine ⟨?_, ?_, ?_, ?_⟩
        · rw [ha, rowLengths_maskCols]
        · rw [hb, cols_maskCols]
        · rw [hc, matMin_maskCols]
        · rw [hd, List.drop_drop]
          congr 1
          ring

/-- When the mask width bound is positive and no larger than the row
count, every frequency-mask pass succeeds. -/
theorem applyFreqMasks_isSome (fmp : ℕ) (hf : 0 < fmp) (n : ℕ) :
    ∀ (m : List (List ℚ)) (ds : List ℕ), fmp ≤ m.length →
      ∃ m' ds', applyFreqMasks n fmp m ds = some (m', ds') := by
  induction n with
  | zero => intro m ds _; exact ⟨m, ds, rfl⟩
  | succ k ih =>
    intro m ds hlen
    have hfl : ds.getD 0 0 % fmp < fmp := Nat.mod_lt _ hf
    have e1 : randint (fmp : ℤ) (ds.getD 0 0) = some (ds.getD 0 0 % fmp) := by
      rw [randint_pos _ (by exact_mod_cast hf)]
      simp
    have ht : (((m.length : ℤ) - ((ds.getD 0 0 % fmp : ℕ) : ℤ))).toNat
        = m.length - ds.getD 0 0 % fmp := by omega
    have e2 : randint ((m.length : ℤ) - ((ds.getD 0 0 % fmp : ℕ) : ℤ)) (ds.getD 1 0)
        = some (ds.getD 1 0 % (m.length - ds.getD 0 0 % fmp)) := by
      rw [randint_pos _ (by omega)]
      rw [ht]
    obtain ⟨m', ds', hrec⟩ := ih
      (maskRows (ds.getD 1 0 % (m.length - ds.getD 0 0 % fmp))
        ((ds.getD 1 0 % (m.length - ds.getD 0 0 % fmp)) + ds.getD 0 0 % fmp)
        (matMin m) m)
      (ds.drop 2) (by rw [length_maskRows]; omega)
    refine ⟨m', ds', ?_⟩
    simp only [applyFreqMasks, e1, e2]
    exact hrec

/-- When the mask width bound is positive and no larger than the column
count, every time-mask pass succeeds. -/
theorem applyTimeMasks_isSome (tmp : ℕ) (ht : 0 < tmp) (n : ℕ) :
    ∀ (m : List (List ℚ)) (ds : List ℕ), tmp ≤ cols m →
      ∃ m' ds', applyTimeMasks n tmp m ds = some (m', ds') := by
  induction n with
  | zero => intro m ds _; exact ⟨m, ds, rfl⟩
  | succ k ih =>
    intro m ds hcols
    have htl : ds.getD 0 0 % tmp < tmp := Nat.mod_lt _ ht
    have e1 : randint (tmp : ℤ) (ds.getD 0 0) = some (ds.getD 0 0 % tmp) := by
      rw [randint_pos _ (by exact_mod_cast ht)]
      simp
    have htn : (((cols m : ℤ) - ((ds.getD 0 0 % tmp : ℕ) : ℤ))).toNat
        = cols m - ds.getD 0 0 % tmp := by omega
    have e2 : randint ((cols m : ℤ) - ((ds.getD 0 0 % tmp : ℕ) : ℤ)) (ds.getD 1 0)
        = some (ds.getD 1 0 % (cols m - ds.getD 0 0 % tmp)) := by
      rw [randint_pos _ (by omega)]
      rw [htn]
    obtain ⟨m', ds', hrec⟩ := ih
      (maskCols (ds.getD 1 0 % (cols m - ds.getD 0 0 % tmp))
        ((ds.getD 1 0 % (cols m - ds.getD 0 0 % tmp)) + ds.getD 0 0 % tmp)
        (matMin m) m)
      (ds.drop 2) (by rw [cols_maskCols]; omega)
    refine ⟨m', ds', ?_⟩
    simp only [applyTimeMasks, e1, e2]
    exact hrec

/-- With fewer than 10 rows, the draw sequence starting with 9 makes the
first frequency mask hit an empty `randint` range. -/
theorem spec_augment_fails_rows (m : List (List ℚ)) (h : m.length < 10) :
    spec_augment m 10 20 2 [9] = none := by
  have e1 : randint (((10 : ℕ)) : ℤ) (([9] : List ℕ).getD 0 0) = some 9 := by
    rw [randint_pos _ (by norm_num)]
    decide
  have e2 : randint ((m.length : ℤ) - (((9 : ℕ)) : ℤ)) (([9] : List ℕ).getD 1 0) = none :=
    randint_nonpos _ (by omega)
  simp only [spec_augment, applyFreqMasks, e1, e2]

/-- With at least 10 rows but fewer than 20 columns, the draw sequence
`[0,0,0,0,19]` survives both (empty) frequency masks and makes the first
time mask hit an empty `randint` range. -/
theorem spec_augment_fails_cols (m : List (List ℚ)) (h10 : 10 ≤ m.length)
    (h20 : cols m < 20) : spec_augment m 10 20 2 [0, 0, 0, 0, 19] = none := by
  obtain ⟨m2, ds2, hf⟩ :=
    applyFreqMasks_isSome 10 (by norm_num) 2 m [0, 0, 0, 0, 19] h10
  obtain ⟨-, hcols, -, hds⟩ := applyFreqMasks_some_inv 2 10 _ _ _ _ hf
  have hds2 : ds2 = [19] := by rw [hds]; rfl
  subst hds2
  have e1 : randint (((20 : ℕ)) : ℤ) (([19] : List ℕ).getD 0 0) = some 19 := by
    rw [randint_pos _ (by norm_num)]
    decide
  have e2 : randint ((cols m2 : ℤ) - (((19 : ℕ)) : ℤ)) (([19] : List ℕ).getD 1 0) = none :=
    randint_nonpos _ (by rw [hcols]; omega)
  simp only [spec_augment, hf, applyTimeMasks, e1, e2]

/-- C7: with the default parameters (frequency bound 10, time bound 20,
2 masks each), `spec_augment` returns normally on every random draw
exactly when the matrix has at least 10 rows and at least 20 columns;
otherwise some draw makes a mask-position `randint` range empty and the
call raises instead of returning a masked matrix. -/
theorem spec_augment_defaults_total_iff (m : List (List ℚ)) :
    (∀ ds : List ℕ, (spec_augment m 10 20 2 ds).isSome = true) ↔
      10 ≤ m.length ∧ 20 ≤ cols m := by
  constructor
  · intro h
    have hrows : 10 ≤ m.length := by
      by_contra hlen
      push_neg at hlen
      have h9 := h [9]
      rw [spec_augment_fails_rows m hlen] at h9
      exact Bool.noConfusion h9
    refine ⟨hrows, ?_⟩
    by_contra hcols
    push_neg at hcols
    have h19 := h [0, 0, 0, 0, 19]
    rw [spec_augment_fails_cols m hrows hcols] at h19
    exact Bool.noConfusion h19
  · rintro ⟨h10, h20⟩ ds
    obtain ⟨m2, ds2, hf⟩ := applyFreqMasks_isSome 10 (by norm_num) 2 m ds h10
    obtain ⟨-, hcols, -, -⟩ := applyFreqMasks_some_inv 2 10 _ _ _ _ hf
    obtain ⟨m4, ds4, htm⟩ :=
      applyTimeMasks_isSome 20 (by norm_num) 2 m2 ds2 (by rw [hcols]; exact h20)
    simp only [spec_augment, hf, htm, Option.isSome_some]

/-- C5: whenever `spec_augment` (default parameters) returns a matrix, that
matrix has the same number of rows and the same row lengths as the input,
and its minimum entry equals the input's minimum entry.  The caller's
matrix itself is untouched: the source masks a `spec.copy()`, which the
embedding's value semantics make implicit. -/
theorem spec_augment_shape_min (m m' : List (List ℚ)) (ds : List ℕ)
    (h : spec_augment m 10 20 2 ds = some m') :
    m'.length = m.length ∧ m'.map List.length = m.map List.length ∧
      matMin m' = matMin m := by
  unfold spec_augment at h
  cases hf : applyFreqMasks 2 10 m ds with
  | none => rw [hf] at h; exact Option.noConfusion h
  | some p =>
    rcases p with ⟨m2, ds2⟩
    rw [hf] at h
    dsimp only at h
    cases htm : applyTimeMasks 2 20 m2 ds2 with
    | none => rw [htm] at h; exact Option.noConfusion h
    | some q =>
      rcases q with ⟨m4, ds4⟩
      rw [htm] at h
      dsimp only at h
      have hm4 : m4 = m' := by simpa using h
      subst hm4
      obtain ⟨ha, -, hc, -⟩ := applyFreqMasks_some_inv 2 10 _ _ _ _ hf
      obtain ⟨ha', -, hc', -⟩ := applyTimeMasks_some_inv 2 20 _ _ _ _ htm
      have hlen : m4.map List.length = m.map List.length := by rw [ha', ha]
      refine ⟨?_, hlen, by rw [hc', hc]⟩
      have := congrArg List.length hlen
      simpa using this

/-- Witness for C5 at a concrete 10 × 20 zero matrix and the all-zero draw
stream. -/
theorem spec_augment_shape_min_witness :
    (spec_augment (List.replicate 10 (List.replicate 20 (0 : ℚ))) 10 20 2 [] =
        some (List.replicate 10 (List.replicate 20 (0 : ℚ)))) ∧
      ((List.replicate 10 (List.replicate 20 (0 : ℚ))).length =
          (List.replicate 10 (List.replicate 20 (0 : ℚ))).length ∧
        (List.replicate 10 (List.replicate 20 (0 : ℚ))).map List.length =
          (List.replicate 10 (List.replicate 20 (0 : ℚ))).map List.length ∧
        matMin (List.replicate 10 (List.replicate 20 (0 : ℚ))) =
          matMin (List.replicate 10 (List.replicate 20 (0 : ℚ)))) :=
  ⟨by decide, spec_augment_shape_min _ _ [] (by decide)⟩

/-- Generalisation of `matMin_maskRows` to any fill value equal to the
matrix minimum. -/
theorem matMin_maskRows_of (a b : ℕ) (v : ℚ) (m : List (List ℚ)) (h : v = matMin m) :
    matMin (maskRows a b v m) = matMin m := by
  subst h
  exact matMin_maskRows a b m

/-- Evaluation of `randint` at a positive literal bound. -/
theorem randint_natCast_eval (k d : ℕ) (h : 0 < k) : randint (k : ℤ) d = some (d % k) := by
  rw [randint_pos _ (by exact_mod_cast h)]
  simp

/-- Evaluation of `randint` at a bound `L - f` with `f < L`. -/
theorem randint_sub_eval (L f d : ℕ) (h : f < L) :
    randint ((L : ℤ) - (f : ℤ)) d = some (d % (L - f)) := by
  rw [randint_pos _ (by omega)]
  have ht : ((L : ℤ) - (f : ℤ)).toNat = L - f := by omega
  rw [ht]

/-- C6: with the default parameters and a matrix of at least 10 rows and
20 columns, `spec_augment` applies exactly two frequency masks followed by
exactly two time masks; each frequency mask is a contiguous band of fewer
than 10 rows, each time mask a contiguous span of fewer than 20 columns,
each mask's width and position come from their own independent draws, and
every masked cell is set to the original matrix's minimum value. -/
theorem spec_augment_defaults_two_masks (m : List (List ℚ)) (ds : List ℕ)
    (h10 : 10 ≤ m.length) (h20 : 20 ≤ cols m) :
    ∃ f₁ o₁ f₂ o₂ t₁ u₁ t₂ u₂ : ℕ,
      f₁ < 10 ∧ f₂ < 10 ∧ t₁ < 20 ∧ t₂ < 20 ∧
      spec_augment m 10 20 2 ds =
        some (maskCols u₂ (u₂ + t₂) (matMin m)
          (maskCols u₁ (u₁ + t₁) (matMin m)
            (maskRows o₂ (o₂ + f₂) (matMin m)
              (maskRows o₁ (o₁ + f₁) (matMin m) m)))) := by
  have hb1 : ds.getD 0 0 % 10 < 10 := Nat.mod_lt _ (by norm_num)
  have hb2 : (ds.drop 2).getD 0 0 % 10 < 10 := Nat.mod_lt _ (by norm_num)
  have hb3 : ((ds.drop 2).drop 2).getD 0 0 % 20 < 20 := Nat.mod_lt _ (by norm_num)
  have hb4 : (((ds.drop 2).drop 2).drop 2).getD 0 0 % 20 < 20 := Nat.mod_lt _ (by norm_num)
  refine ⟨ds.getD 0 0 % 10, ds.getD 1 0 % (m.length - ds.getD 0 0 % 10),
    (ds.drop 2).getD 0 0 % 10,
    (ds.drop 2).getD 1 0 % (m.length - (ds.drop 2).getD 0 0 % 10),
    ((ds.drop 2).drop 2).getD 0 0 % 20,
    ((ds.drop 2).drop 2).getD 1 0 % (cols m - ((ds.drop 2).drop 2).getD 0 0 % 20),
    (((ds.drop 2).drop 2).drop 2).getD 0 0 % 20,
    (((ds.drop 2).drop 2).drop 2).getD 1 0 %
      (cols m - (((ds.drop 2).drop 2).drop 2).getD 0 0 % 20),
    hb1, hb2, hb3, hb4, ?_⟩
  simp only [spec_augment, applyFreqMasks, applyTimeMasks,
    randint_natCast_eval 10 _ (by norm_num), randint_natCast_eval 20 _ (by norm_num),
    length_maskRows, cols_maskRows, cols_maskCols, matMin_maskRows, matMin_maskCols,
    randint_sub_eval m.length (ds.getD 0 0 % 10) (ds.getD 1 0) (by omega),
    randint_sub_eval m.length ((ds.drop 2).getD 0 0 % 10) ((ds.drop 2).getD 1 0) (by omega),
    randint_sub_eval (cols m) (((ds.drop 2).drop 2).getD 0 0 % 20)
      (((ds.drop 2).drop 2).getD 1 0) (by omega),
    randint_sub_eval (cols m) ((((ds.drop 2).drop 2).drop 2).getD 0 0 % 20)
      ((((ds.drop 2).drop 2).drop 2).getD 1 0) (by omega)]
  have hfix : ∀ a b : ℕ,
      matMin (maskRows a b (matMin m)
        (maskRows (ds.getD 1 0 % (m.length - ds.getD 0 0 % 10))
          (ds.getD 1 0 % (m.length - ds.getD 0 0 % 10) + ds.getD 0 0 % 10)
          (matMin m) m))
      = matMin m := by
    intro a b
    exact (matMin_maskRows_of a b _ _ (matMin_maskRows _ _ _).symm).trans
      (matMin_maskRows _ _ _)
  simp only [hfix]

/-- Witness for C6 at a concrete 10 × 20 zero matrix and the empty draw
stream. -/
theorem spec_augment_defaults_two_masks_witness :
    (10 ≤ (List.replicate 10 (List.replicate 20 (0 : ℚ))).length ∧
      20 ≤ cols (List.replicate 10 (List.replicate 20 (0 : ℚ)))) ∧
    (∃ f₁ o₁ f₂ o₂ t₁ u₁ t₂ u₂ : ℕ,
      f₁ < 10 ∧ f₂ < 10 ∧ t₁ < 20 ∧ t₂ < 20 ∧
      spec_augment (List.replicate 10 (List.replicate 20 (0 : ℚ))) 10 20 2 [] =
        some (maskCols u₂ (u₂ + t₂) (matMin (List.replicate 10 (List.replicate 20 (0 : ℚ))))
          (maskCols u₁ (u₁ + t₁) (matMin (List.replicate 10 (List.replicate 20 (0 : ℚ))))
            (maskRows o₂ (o₂ + f₂) (matMin (List.replicate 10 (List.replicate 20 (0 : ℚ))))
              (maskRows o₁ (o₁ + f₁)
                (matMin (List.replicate 10 (List.replicate 20 (0 : ℚ))))
                (List.replicate 10 (List.replicate 20 (0 : ℚ)))))))) :=
  ⟨⟨by decide, by decide⟩,
    spec_augment_defaults_two_masks (List.replicate 10 (List.replicate 20 (0 : ℚ))) []
      (by decide) (by decide)⟩

/-! Theorems for the claims. -/

/-- C10: a failed audio read or decode (`librosa.load` raising) is caught
and turned into the failure value `None`, never propagated; a successful
load always yields a processed waveform. -/
theorem load_and_preprocess_audio_error_spec (msg : String) (y : List ℝ) :
    load_and_preprocess_audio (Except.error msg) = none ∧
    (y ≠ [] → (load_and_preprocess_audio (Except.ok y)).isSome = true) := by
  exact ⟨rfl, fun _ => rfl⟩

/-- Witness for C10 at a one-sample waveform. -/
theorem load_and_preprocess_audio_error_spec_witness :
    ([(1 : ℝ)] ≠ []) ∧ load_and_preprocess_audio (Except.error "boom") = none ∧
      (load_and_preprocess_audio (Except.ok [(1 : ℝ)])).isSome = true :=
  ⟨by simp, (load_and_preprocess_audio_error_spec "boom" [(1 : ℝ)]).1,
    (load_and_preprocess_audio_error_spec "boom" [(1 : ℝ)]).2 (by simp)⟩

/-- C9: `resize_for_cnn` is deterministic — two calls on the same matrix
with the same configuration give identical output (the embedding consumes
no random state, mirroring the absence of any random call in the source's
non-augmented path). -/
theorem resize_for_cnn_deterministic (m₁ m₂ : List (List ℚ)) (h : m₁ = m₂) :
    resize_for_cnn m₁ 224 224 = resize_for_cnn m₂ 224 224 := by rw [h]

/-- Witness for C9 at a concrete matrix. -/
theorem resize_for_cnn_deterministic_witness :
    ([[(0 : ℚ)]] = [[(0 : ℚ)]]) ∧
      resize_for_cnn [[(0 : ℚ)]] 224 224 = resize_for_cnn [[(0 : ℚ)]] 224 224 :=
  ⟨rfl, resize_for_cnn_deterministic [[(0 : ℚ)]] [[(0 : ℚ)]] rfl⟩

/-- Bound used for every colour channel the jet palette emits. -/
theorem clamp255_le (x : ℤ) : clamp255 x ≤ 255 := by
  unfold clamp255
  have h := min_le_right (max x 0) (255 : ℤ)
  omega

/-- C2 counterexample: on a 224-row, 200-column matrix, `resize_for_cnn`
with the default target size returns a 224 × 200 image, not 224 × 224 —
the squaring test (width within 20% of height) and the final-resize test
(target equal to `(n_mels, n_mels)`) both pass the matrix through. -/
theorem cols_map_map {α β : Type*} (g : α → β) (m : List (List α)) :
    cols (m.map (List.map g)) = cols m := by
  cases m with
  | nil => rfl
  | cons r t => simp [cols]

theorem resize_for_cnn_shape_cex :
    cols (resize_for_cnn cexWideMatrix 224 224) = 200 ∧ (200 : ℕ) ≠ 224 := by
  have hlen : cexWideMatrix.length = 224 := by simp [cexWideMatrix]
  have hcols : cols cexWideMatrix = 200 := by
    rw [show cexWideMatrix =
      List.replicate 200 (0 : ℚ) :: List.replicate 223 (List.replicate 200 (0 : ℚ)) from rfl]
    simp [cols]
  constructor
  · simp only [resize_for_cnn]
    rw [if_neg (by rw [hlen]; simp)]
    rw [if_neg (by rw [hcols, hlen]; norm_num)]
    rw [cols_map_map, cols_map_map, cols_map_map, hcols]
  · decide

/-- C2 (amended): for every matrix whose row count is not exactly 224, the
default-target `resize_for_cnn` output has exactly 224 rows of exactly 224
pixels, each pixel a triple of channel values at most 255.  (A 224-row
matrix whose column count lies within 20% of 224 but is not 224 keeps its
original width instead — see the counterexample.) -/
theorem resize_for_cnn_shape (m : List (List ℚ)) (h : m.length ≠ 224) :
    (resize_for_cnn m 224 224).length = 224 ∧
    (∀ row ∈ resize_for_cnn m 224 224, row.length = 224) ∧
    (∀ row ∈ resize_for_cnn m 224 224, ∀ px ∈ row,
      px.1 ≤ 255 ∧ px.2.1 ≤ 255 ∧ px.2.2 ≤ 255) := by
  have hcond : ((224, 224) : ℕ × ℕ) ≠ (m.length, m.length) := by
    intro he
    have h1 := congrArg Prod.fst he
    simp only at h1
    exact h h1.symm
  simp only [resize_for_cnn]
  rw [if_pos hcond]
  refine ⟨?_, ?_, ?_⟩
  · simp [cv2resize]
  · intro row hrow
    simp only [List.mem_map] at hrow
    obtain ⟨r1, hr1, rfl⟩ := hrow
    obtain ⟨r2, hr2, rfl⟩ := hr1
    simp only [cv2resize, List.mem_map] at hr2
    obtain ⟨i, hi, rfl⟩ := hr2
    simp
  · intro row hrow px hpx
    simp only [List.mem_map] at hrow
    obtain ⟨r1, hr1, rfl⟩ := hrow
    obtain ⟨r2, hr2, rfl⟩ := hr1
    simp only [List.mem_map] at hpx
    obtain ⟨p1, hp1, rfl⟩ := hpx
    obtain ⟨v, hv, rfl⟩ := hp1
    exact ⟨clamp255_le _, clamp255_le _, clamp255_le _⟩

/-- Witness for C2's amended theorem at a concrete 2 × 1 matrix. -/
theorem resize_for_cnn_shape_witness :
    ([[(0 : ℚ)], [(1 : ℚ)]].length ≠ 224) ∧
    ((resize_for_cnn [[(0 : ℚ)], [(1 : ℚ)]] 224 224).length = 224 ∧
      (∀ row ∈ resize_for_cnn [[(0 : ℚ)], [(1 : ℚ)]] 224 224, row.length = 224) ∧
      (∀ row ∈ resize_for_cnn [[(0 : ℚ)], [(1 : ℚ)]] 224 224, ∀ px ∈ row,
        px.1 ≤ 255 ∧ px.2.1 ≤ 255 ∧ px.2.2 ≤ 255)) :=
  ⟨by decide, resize_for_cnn_shape [[(0 : ℚ)], [(1 : ℚ)]] (by decide)⟩

/-- C8 counterexample: when the `AddGaussianNoise` constructor itself is
the incompatible one (raising `TypeError` under every attempted API), the
final fallback chain is not wrapped in a `try`, so `get_audio_augmenter`
raises instead of degrading — refuting "construction never raises for such
incompatibilities". -/
theorem get_audio_augmenter_raises_cex :
    get_audio_augmenter (AudioEnv.mk false true true true true) = Except.error () := rfl

/-- C8 (amended): provided the Gaussian-noise and time-stretch constructor
calls are compatible, `get_audio_augmenter` never raises and degrades in
the claimed order: the newer-gain four-transform chain, then the chain
with the older gain keyword, then the minimal noise + time-stretch
chain. -/
theorem get_audio_augmenter_degrades (env : AudioEnv)
    (hn : env.noiseOk = true) (hs : env.stretchOk = true) :
    get_audio_augmenter env =
      if env.pitchOk ∧ env.gainNewOk then
        Except.ok [ATransform.addGaussianNoise (1/1000) (15/1000) (1/2),
          ATransform.timeStretch (4/5) (6/5) (1/2),
          ATransform.pitchShift (-4) 4 (1/2), ATransform.gainNewApi (-6) 6 (1/2)]
      else if env.pitchOk ∧ env.gainOldOk then
        Except.ok [ATransform.addGaussianNoise (1/1000) (15/1000) (1/2),
          ATransform.timeStretch (4/5) (6/5) (1/2),
          ATransform.pitchShift (-4) 4 (1/2), ATransform.gainOldApi (-6) 6 (1/2)]
      else
        Except.ok [ATransform.addGaussianNoise (1/1000) (15/1000) (1/2),
          ATransform.timeStretch (4/5) (6/5) (1/2)] := by
  rcases env with ⟨n, s, p, gn, go⟩
  simp only at hn hs
  subst hn hs
  cases p <;> cases gn <;> cases go <;> rfl

/-- Witness for C8's amended theorem at a fully compatible environment. -/
theorem get_audio_augmenter_degrades_witness :
    ((AudioEnv.mk true true true true true).noiseOk = true ∧
      (AudioEnv.mk true true true true true).stretchOk = true) ∧
    get_audio_augmenter (AudioEnv.mk true true true true true) =
      if (AudioEnv.mk true true true true true).pitchOk ∧
          (AudioEnv.mk true true true true true).gainNewOk then
        Except.ok [ATransform.addGaussianNoise (1/1000) (15/1000) (1/2),
          ATransform.timeStretch (4/5) (6/5) (1/2),
          ATransform.pitchShift (-4) 4 (1/2), ATransform.gainNewApi (-6) 6 (1/2)]
      else if (AudioEnv.mk true true true true true).pitchOk ∧
          (AudioEnv.mk true true true true true).gainOldOk then
        Except.ok [ATransform.addGaussianNoise (1/1000) (15/1000) (1/2),
          ATransform.timeStretch (4/5) (6/5) (1/2),
          ATransform.pitchShift (-4) 4 (1/2), ATransform.gainOldApi (-6) 6 (1/2)]
      else
        Except.ok [ATransform.addGaussianNoise (1/1000) (15/1000) (1/2),
          ATransform.timeStretch (4/5) (6/5) (1/2)] :=
  ⟨⟨rfl, rfl⟩, get_audio_augmenter_degrades (AudioEnv.mk true true true true true) rfl rfl⟩

/-- Characterisation used to compute `np.max` on explicit real lists. -/
theorem listMaxR_eq_of (l : List ℝ) (v : ℝ) (hv : v ∈ l) (hub : ∀ x ∈ l, x ≤ v) :
    listMaxR l = v := by
  rw [listMaxR, max?_eq_some_iff_lin.mpr ⟨hv, hub⟩]
  rfl

/-- `np.max` of a non-empty real list is attained and bounds the list. -/
theorem listMaxR_spec (l : List ℝ) (hl : l ≠ []) :
    listMaxR l ∈ l ∧ ∀ x ∈ l, x ≤ listMaxR l := by
  cases hm : l.max? with
  | none => exact absurd (List.max?_eq_none_iff.mp hm) hl
  | some v =>
    obtain ⟨hv, hub⟩ := max?_eq_some_iff_lin.mp hm
    rw [listMaxR, hm]
    exact ⟨hv, hub⟩

/-- Column energies are strictly positive (a sum of powers of 10 plus the
epsilon). -/
theorem specEnergy_pos (m : List (List ℝ)) (j : ℕ) : 0 < specEnergy m j := by
  unfold specEnergy
  have hsum : 0 ≤ (m.map (fun r => (10 : ℝ) ^ (r.getD j 0 / 10))).sum := by
    apply List.sum_nonneg
    intro x hx
    simp only [List.mem_map] at hx
    obtain ⟨r, hr, rfl⟩ := hx
    positivity
  have heps : (0 : ℝ) < 1/10000000000 := by norm_num
  linarith

/-- Because every column energy is positive, the column of maximum energy
always exceeds 1% of the maximum: the active set is never empty for a
non-empty spectrogram. -/
theorem activeSpecCols_ne_nil (m : List (List ℝ)) (h : 1 ≤ cols m) :
    activeSpecCols m ≠ [] := by
  have hne : (List.range (cols m)).map (fun j => specEnergy m j) ≠ [] := by
    intro hcon
    have := congrArg List.length hcon
    simp at this
    omega
  obtain ⟨hmem, hub⟩ := listMaxR_spec _ hne
  rw [List.mem_map] at hmem
  obtain ⟨j, hj, hEj⟩ := hmem
  have hMpos : 0 < listMaxR ((List.range (cols m)).map (fun j => specEnergy m j)) := by
    rw [← hEj]
    exact specEnergy_pos m j
  intro hnil
  have hactive : j ∈ activeSpecCols m := by
    unfold activeSpecCols
    rw [List.mem_filter]
    refine ⟨hj, ?_⟩
    rw [decide_eq_true_eq, hEj]
    linarith
  rw [hnil] at hactive
  exact absurd hactive (List.not_mem_nil j)

/-- C4: the trailing crop of `create_mel_spectrogram` keeps exactly the
columns up to the last one whose linear energy (sum of `10^(dB/10)` over
the mel bands, plus epsilon) exceeds 1% of the maximum column energy, plus
5 columns of padding clamped to the matrix width; with no active column
the matrix would be returned uncropped — and in fact the active set is
never empty, since every column energy is positive. -/
theorem create_mel_crop_spec (m : List (List ℝ)) (h : 1 ≤ cols m) :
    activeSpecCols m ≠ [] ∧
    (∀ last, (activeSpecCols m).getLast? = some last →
      specCrop m = m.map (List.take (min (last + 5) (cols m - 1) + 1))) ∧
    ((activeSpecCols m).getLast? = none → specCrop m = m) := by
  refine ⟨activeSpecCols_ne_nil m h, ?_, ?_⟩
  · intro last hl
    unfold specCrop
    rw [hl]
  · intro hnone
    unfold specCrop
    rw [hnone]

/-- Witness for C4 at a concrete 1 × 2 decibel matrix. -/
theorem create_mel_crop_spec_witness :
    (1 ≤ cols [[(0 : ℝ), (-80 : ℝ)]]) ∧
    (activeSpecCols [[(0 : ℝ), (-80 : ℝ)]] ≠ [] ∧
      (∀ last, (activeSpecCols [[(0 : ℝ), (-80 : ℝ)]]).getLast? = some last →
        specCrop [[(0 : ℝ), (-80 : ℝ)]] =
          [[(0 : ℝ), (-80 : ℝ)]].map
            (List.take (min (last + 5) (cols [[(0 : ℝ), (-80 : ℝ)]] - 1) + 1))) ∧
      ((activeSpecCols [[(0 : ℝ), (-80 : ℝ)]]).getLast? = none →
        specCrop [[(0 : ℝ), (-80 : ℝ)]] = [[(0 : ℝ), (-80 : ℝ)]])) :=
  ⟨by simp [cols], create_mel_crop_spec [[(0 : ℝ), (-80 : ℝ)]] (by simp [cols])⟩

/-- Flattening commutes with mapping over every row. -/
theorem flatten_map_map {α β : Type*} (f : α → β) (m : List (List α)) :
    (m.map (List.map f)).flatten = m.flatten.map f := by
  induction m with
  | nil => rfl
  | cons r t ih =>
    rw [List.map_cons, List.flatten_cons, List.flatten_cons, List.map_append, ih]

/-- A power no larger than the reference converts to at most 0 dB. -/
theorem dbOf_nonpos {r p : ℝ} (hpr : p ≤ r) : dbOf r p ≤ 0 := by
  unfold dbOf
  have h1 : max (1/10000000000 : ℝ) p ≤ max (1/10000000000 : ℝ) r :=
    max_le_max le_rfl hpr
  have h2 : (0 : ℝ) < max (1/10000000000 : ℝ) p :=
    lt_of_lt_of_le (by norm_num) (le_max_left _ _)
  have h3 : (0 : ℝ) < max (1/10000000000 : ℝ) r :=
    lt_of_lt_of_le (by norm_num) (le_max_left _ _)
  have h4 : Real.logb 10 (max (1/10000000000 : ℝ) p) ≤
      Real.logb 10 (max (1/10000000000 : ℝ) r) :=
    (Real.logb_le_logb (by norm_num) h2 h3).mpr h1
  linarith

/-- The reference power itself converts to exactly 0 dB. -/
theorem dbOf_self (r : ℝ) : dbOf r r = 0 := sub_self _

/-- The un-clipped decibel matrix has maximum exactly 0. -/
theorem matMaxR_dbMap (S : List (List ℝ)) (h : S.flatten ≠ []) :
    matMaxR (S.map (List.map (dbOf (matMaxR S)))) = 0 := by
  unfold matMaxR
  rw [flatten_map_map]
  apply listMaxR_eq_of
  · rw [List.mem_map]
    exact ⟨listMaxR S.flatten, (listMaxR_spec _ h).1, dbOf_self _⟩
  · intro x hx
    rw [List.mem_map] at hx
    obtain ⟨p, hp, rfl⟩ := hx
    exact dbOf_nonpos ((listMaxR_spec _ h).2 p hp)

/-- The flattened entries of `power_to_db`. -/
theorem flatten_power_to_db (S : List (List ℝ)) :
    (power_to_db S).flatten =
      (S.flatten.map (dbOf (matMaxR S))).map
        (fun d => max d (matMaxR (S.map (List.map (dbOf (matMaxR S)))) - 80)) := by
  simp only [power_to_db]
  rw [flatten_map_map, flatten_map_map]

/-- For a non-empty power matrix, `power_to_db` has maximum exactly 0. -/
theorem power_to_db_max (S : List (List ℝ)) (h : S.flatten ≠ []) :
    matMaxR (power_to_db S) = 0 := by
  unfold matMaxR
  rw [flatten_power_to_db]
  apply listMaxR_eq_of
  · rw [List.mem_map]
    refine ⟨dbOf (matMaxR S) (listMaxR S.flatten), ?_, ?_⟩
    · rw [List.mem_map]
      exact ⟨listMaxR S.flatten, (listMaxR_spec _ h).1, rfl⟩
    · rw [matMaxR_dbMap S h]
      rw [show dbOf (matMaxR S) (listMaxR S.flatten) = 0 from dbOf_self _]
      norm_num
  · intro x hx
    rw [List.mem_map] at hx
    obtain ⟨d, hd, rfl⟩ := hx
    rw [List.mem_map] at hd
    obtain ⟨p, hp, rfl⟩ := hd
    rw [matMaxR_dbMap S h]
    exact max_le (dbOf_nonpos ((listMaxR_spec _ h).2 p hp)) (by norm_num)

/-- Every entry of `power_to_db` of a non-empty power matrix is at most
0 dB. -/
theorem power_to_db_nonpos (S : List (List ℝ)) (h : S.flatten ≠ []) :
    ∀ x ∈ (power_to_db S).flatten, x ≤ 0 := by
  intro x hx
  have hne : (power_to_db S).flatten ≠ [] := List.ne_nil_of_mem hx
  have hle := (listMaxR_spec _ hne).2 x hx
  have hmax : listMaxR (power_to_db S).flatten = 0 := power_to_db_max S h
  linarith [hle, le_of_eq hmax]

/-- The trailing crop only removes entries, never adds them. -/
theorem mem_flatten_specCrop {x : ℝ} {m : List (List ℝ)}
    (hx : x ∈ (specCrop m).flatten) : x ∈ m.flatten := by
  unfold specCrop at hx
  split at hx
  · exact hx
  · rw [List.mem_flatten] at hx ⊢
    obtain ⟨r', hr', hxr⟩ := hx
    rw [List.mem_map] at hr'
    obtain ⟨r, hr, rfl⟩ := hr'
    exact ⟨r, hr, List.mem_of_mem_take hxr⟩

/-- C1 (amended): for every non-empty mel-power matrix, the decibel matrix
produced by the reference-to-peak conversion has maximum exactly 0 dB
before the trailing crop, and every value of the final (cropped)
spectrogram is at most 0 dB.  After the crop the maximum need not be 0 —
see the counterexample. -/
theorem create_mel_spectrogram_max (S : List (List ℝ)) (h : S.flatten ≠ []) :
    matMaxR (power_to_db S) = 0 ∧
    ∀ x ∈ (create_mel_spectrogram S).flatten, x ≤ 0 := by
  refine ⟨power_to_db_max S h, ?_⟩
  intro x hx
  unfold create_mel_spectrogram at hx
  exact power_to_db_nonpos S h x (mem_flatten_specCrop hx)

/-- Witness for C1's amended theorem at the 1 × 1 power matrix `[[1]]`. -/
theorem create_mel_spectrogram_max_witness :
    (([[(1 : ℝ)]] : List (List ℝ)).flatten ≠ []) ∧
    (matMaxR (power_to_db [[(1 : ℝ)]]) = 0 ∧
      ∀ x ∈ (create_mel_spectrogram [[(1 : ℝ)]]).flatten, x ≤ 0) :=
  ⟨by simp, create_mel_spectrogram_max [[(1 : ℝ)]] (by simp)⟩

/-- The peak power of the counterexample matrix is 10. -/
theorem cex_matMax : matMaxR cexPowerMatrix = 10 := by
  unfold matMaxR cexPowerMatrix
  apply listMaxR_eq_of
  · rw [List.flatten_cons, List.mem_append]
    left
    norm_num
  · intro x hx
    rw [List.flatten_cons, List.mem_append] at hx
    rcases hx with hx | hx
    · simp only [List.mem_cons, List.not_mem_nil, or_false] at hx
      rcases hx with rfl | rfl | rfl | rfl | rfl | rfl | rfl <;> norm_num
    · rw [List.mem_flatten] at hx
      obtain ⟨l, hl, hxl⟩ := hx
      rw [List.mem_replicate] at hl
      rw [hl.2] at hxl
      simp only [List.mem_cons, List.not_mem_nil, or_false] at hxl
      rcases hxl with rfl | rfl | rfl | rfl | rfl | rfl | rfl <;> norm_num

/-- Power 1 against reference 10 is −10 dB. -/
theorem cex_dbOf_one : dbOf 10 1 = -10 := by
  unfold dbOf
  rw [show max (1/10000000000 : ℝ) 1 = 1 by norm_num,
    show max (1/10000000000 : ℝ) 10 = 10 by norm_num,
    Real.logb_one, Real.logb_self_eq_one (by norm_num)]
  norm_num

/-- Power 0 against reference 10 is −110 dB (the `amin` floor). -/
theorem cex_dbOf_zero : dbOf 10 0 = -110 := by
  unfold dbOf
  rw [show max (1/10000000000 : ℝ) 0 = 1/10000000000 by norm_num,
    show max (1/10000000000 : ℝ) 10 = 10 by norm_num,
    show (1/10000000000 : ℝ) = (10 : ℝ) ^ (-10 : ℤ) by norm_num]
  rw [show Real.logb 10 ((10 : ℝ) ^ (-10 : ℤ)) = -10 by
    rw [Real.logb, Real.log_zpow, div_eq_iff (by positivity : Real.log 10 ≠ 0)]
    push_cast
    ring]
  rw [Real.logb_self_eq_one (by norm_num)]
  norm_num

/-- `power_to_db` maps the counterexample to its clipped decibel matrix. -/
theorem cex_db_matrix : power_to_db cexPowerMatrix = cexDbMatrix := by
  have hL : cexPowerMatrix.map (List.map (dbOf (matMaxR cexPowerMatrix))) =
      cexDbUnclipped := by
    rw [cex_matMax]
    unfold cexPowerMatrix cexDbUnclipped
    rw [List.map_cons, List.map_replicate]
    rw [show List.map (dbOf 10) [(1 : ℝ), 0, 0, 0, 0, 0, 10] =
        [(-10 : ℝ), -110, -110, -110, -110, -110, 0] by
      simp only [List.map_cons, List.map_nil, cex_dbOf_one, cex_dbOf_zero, dbOf_self]]
    rw [show List.map (dbOf 10) [(1 : ℝ), 0, 0, 0, 0, 0, 0] =
        [(-10 : ℝ), -110, -110, -110, -110, -110, -110] by
      simp only [List.map_cons, List.map_nil, cex_dbOf_one, cex_dbOf_zero]]
  have hML : matMaxR cexDbUnclipped = 0 := by
    unfold matMaxR cexDbUnclipped
    apply listMaxR_eq_of
    · rw [List.flatten_cons, List.mem_append]
      left
      norm_num
    · intro x hx
      rw [List.flatten_cons, List.mem_append] at hx
      rcases hx with hx | hx
      · simp only [List.mem_cons, List.not_mem_nil, or_false] at hx
        rcases hx with rfl | rfl | rfl | rfl | rfl | rfl | rfl <;> norm_num
      · rw [List.mem_flatten] at hx
        obtain ⟨l, hl, hxl⟩ := hx
        rw [List.mem_replicate] at hl
        rw [hl.2] at hxl
        simp only [List.mem_cons, List.not_mem_nil, or_false] at hxl
        rcases hxl with rfl | rfl | rfl | rfl | rfl | rfl | rfl <;> norm_num
  simp only [power_to_db, hL, hML]
  unfold cexDbUnclipped cexDbMatrix
  rw [List.map_cons, List.map_replicate]
  rw [show List.map (fun d => max d ((0 : ℝ) - 80))
      [(-10 : ℝ), -110, -110, -110, -110, -110, 0] =
      [(-10 : ℝ), -80, -80, -80, -80, -80, 0] by
    simp only [List.map_cons, List.map_nil]
    norm_num]
  rw [show List.map (fun d => max d ((0 : ℝ) - 80))
      [(-10 : ℝ), -110, -110, -110, -110, -110, -110] =
      [(-10 : ℝ), -80, -80, -80, -80, -80, -80] by
    simp only [List.map_cons, List.map_nil]
    norm_num]

/-- Column energies of the clipped decibel matrix, in terms of its two row
shapes. -/
theorem cex_energy_eval (j : ℕ) :
    specEnergy cexDbMatrix j =
      (10 : ℝ) ^ (([(-10 : ℝ), -80, -80, -80, -80, -80, 0].getD j 0) / 10) +
        1000 * (10 : ℝ) ^ (([(-10 : ℝ), -80, -80, -80, -80, -80, -80].getD j 0) / 10) +
        1/10000000000 := by
  unfold specEnergy cexDbMatrix
  rw [List.map_cons, List.map_replicate, List.sum_cons, List.sum_replicate, nsmul_eq_mul]
  push_cast
  ring

/-- Decibel-to-linear evaluations used by the crop. -/
theorem cex_rpow_neg10 : (10 : ℝ) ^ ((-10 : ℝ)/10) = 1/10 := by
  rw [show ((-10 : ℝ)/10) = ((-1 : ℤ) : ℝ) by norm_num, Real.rpow_intCast]
  norm_num

/-- Linear value of −80 dB. -/
theorem cex_rpow_neg80 : (10 : ℝ) ^ ((-80 : ℝ)/10) = 1/100000000 := by
  rw [show ((-80 : ℝ)/10) = ((-8 : ℤ) : ℝ) by norm_num, Real.rpow_intCast]
  norm_num

/-- Only column 0 of the clipped decibel matrix exceeds 1% of the maximum
column energy: the broadband column dominates and the 0 dB tone column
falls below the threshold. -/
theorem cex_active : activeSpecCols cexDbMatrix = [0] := by
  have hE0 : specEnergy cexDbMatrix 0 = 1/10 + 1000 * (1/10) + 1/10000000000 := by
    rw [cex_energy_eval 0,
      show ([(-10 : ℝ), -80, -80, -80, -80, -80, 0].getD 0 0) = -10 from rfl,
      show ([(-10 : ℝ), -80, -80, -80, -80, -80, -80].getD 0 0) = -10 from rfl,
      cex_rpow_neg10]
  have hE1 : specEnergy cexDbMatrix 1 =
      1/100000000 + 1000 * (1/100000000) + 1/10000000000 := by
    rw [cex_energy_eval 1,
      show ([(-10 : ℝ), -80, -80, -80, -80, -80, 0].getD 1 0) = -80 from rfl,
      show ([(-10 : ℝ), -80, -80, -80, -80, -80, -80].getD 1 0) = -80 from rfl,
      cex_rpow_neg80]
  have hE2 : specEnergy cexDbMatrix 2 =
      1/100000000 + 1000 * (1/100000000) + 1/10000000000 := by
    rw [cex_energy_eval 2,
      show ([(-10 : ℝ), -80, -80, -80, -80, -80, 0].getD 2 0) = -80 from rfl,
      show ([(-10 : ℝ), -80, -80, -80, -80, -80, -80].getD 2 0) = -80 from rfl,
      cex_rpow_neg80]
  have hE3 : specEnergy cexDbMatrix 3 =
      1/100000000 + 1000 * (1/100000000) + 1/10000000000 := by
    rw [cex_energy_eval 3,
      show ([(-10 : ℝ), -80, -80, -80, -80, -80, 0].getD 3 0) = -80 from rfl,
      show ([(-10 : ℝ), -80, -80, -80, -80, -80, -80].getD 3 0) = -80 from rfl,
      cex_rpow_neg80]
  have hE4 : specEnergy cexDbMatrix 4 =
      1/100000000 + 1000 * (1/100000000) + 1/10000000000 := by
    rw [cex_energy_eval 4,
      show ([(-10 : ℝ), -80, -80, -80, -80, -80, 0].getD 4 0) = -80 from rfl,
      show ([(-10 : ℝ), -80, -80, -80, -80, -80, -80].getD 4 0) = -80 from rfl,
      cex_rpow_neg80]
  have hE5 : specEnergy cexDbMatrix 5 =
      1/100000000 + 1000 * (1/100000000) + 1/10000000000 := by
    rw [cex_energy_eval 5,
      show ([(-10 : ℝ), -80, -80, -80, -80, -80, 0].getD 5 0) = -80 from rfl,
      show ([(-10 : ℝ), -80, -80, -80, -80, -80, -80].getD 5 0) = -80 from rfl,
      cex_rpow_neg80]
  have hE6 : specEnergy cexDbMatrix 6 =
      1 + 1000 * (1/100000000) + 1/10000000000 := by
    rw [cex_energy_eval 6,
      show ([(-10 : ℝ), -80, -80, -80, -80, -80, 0].getD 6 0) = 0 from rfl,
      show ([(-10 : ℝ), -80, -80, -80, -80, -80, -80].getD 6 0) = -80 from rfl,
      cex_rpow_neg80]
    norm_num
  have hlist : (List.range (cols cexDbMatrix)).map (specEnergy cexDbMatrix) =
      [1/10 + 1000 * (1/10) + 1/10000000000,
       1/100000000 + 1000 * (1/100000000) + 1/10000000000,
       1/100000000 + 1000 * (1/100000000) + 1/10000000000,
       1/100000000 + 1000 * (1/100000000) + 1/10000000000,
       1/100000000 + 1000 * (1/100000000) + 1/10000000000,
       1/100000000 + 1000 * (1/100000000) + 1/10000000000,
       1 + 1000 * (1/100000000) + 1/10000000000] := by
    rw [show cols cexDbMatrix = 7 from rfl,
      show List.range 7 = [0, 1, 2, 3, 4, 5, 6] from rfl]
    simp only [List.map_cons, List.map_nil, hE0, hE1, hE2, hE3, hE4, hE5, hE6]
  have hmaxE : listMaxR
      [1/10 + 1000 * (1/10) + 1/10000000000,
       1/100000000 + 1000 * (1/100000000) + 1/10000000000,
       1/100000000 + 1000 * (1/100000000) + 1/10000000000,
       1/100000000 + 1000 * (1/100000000) + 1/10000000000,
       1/100000000 + 1000 * (1/100000000) + 1/10000000000,
       1/100000000 + 1000 * (1/100000000) + 1/10000000000,
       (1 : ℝ) + 1000 * (1/100000000) + 1/10000000000] =
      1/10 + 1000 * (1/10) + 1/10000000000 := by
    apply listMaxR_eq_of
    · norm_num
    · intro x hx
      simp only [List.mem_cons, List.not_mem_nil, or_false] at hx
      rcases hx with rfl | rfl | rfl | rfl | rfl | rfl | rfl <;> norm_num
  have hlm : listMaxR ((List.range (cols cexDbMatrix)).map (specEnergy cexDbMatrix)) =
      1/10 + 1000 * (1/10) + 1/10000000000 := by
    rw [hlist, hmaxE]
  unfold activeSpecCols
  simp only [hlm]
  rw [show cols cexDbMatrix = 7 from rfl,
    show List.range 7 = [0, 1, 2, 3, 4, 5, 6] from rfl]
  simp only [List.filter_cons, List.filter_nil, hE0, hE1, hE2, hE3, hE4, hE5, hE6,
    decide_eq_true (show (1/10 + 1000 * (1/10) + 1/10000000000 : ℝ) >
      1/100 * (1/10 + 1000 * (1/10) + 1/10000000000) by norm_num),
    decide_eq_false (show ¬((1/100000000 + 1000 * (1/100000000) + 1/10000000000 : ℝ) >
      1/100 * (1/10 + 1000 * (1/10) + 1/10000000000)) by norm_num),
    decide_eq_false (show ¬(((1 : ℝ) + 1000 * (1/100000000) + 1/10000000000 : ℝ) >
      1/100 * (1/10 + 1000 * (1/10) + 1/10000000000)) by norm_num)]
  simp

/-- The trailing crop keeps only columns 0-5 of the clipped decibel
matrix, removing the 0 dB cell in column 6. -/
theorem cex_crop : specCrop cexDbMatrix = cexCroppedMatrix := by
  unfold specCrop
  rw [show (activeSpecCols cexDbMatrix).getLast? = some 0 by rw [cex_active]; rfl]
  dsimp only
  rw [show (min (0 + 5) (cols cexDbMatrix - 1) + 1 : ℕ) = 6 from rfl]
  unfold cexDbMatrix cexCroppedMatrix
  rw [List.map_cons, List.map_replicate]
  rfl

/-- The maximum of the cropped spectrogram is −10 dB. -/
theorem cex_cropped_max : matMaxR cexCroppedMatrix = -10 := by
  unfold matMaxR cexCroppedMatrix
  apply listMaxR_eq_of
  · rw [List.flatten_cons, List.mem_append]
    left
    norm_num
  · intro x hx
    rw [List.flatten_cons, List.mem_append] at hx
    rcases hx with hx | hx
    · simp only [List.mem_cons, List.not_mem_nil, or_false] at hx
      rcases hx with rfl | rfl | rfl | rfl | rfl | rfl <;> norm_num
    · rw [List.mem_flatten] at hx
      obtain ⟨l, hl, hxl⟩ := hx
      rw [List.mem_replicate] at hl
      rw [hl.2] at hxl
      simp only [List.mem_cons, List.not_mem_nil, or_false] at hxl
      rcases hxl with rfl | rfl | rfl | rfl | rfl | rfl <;> norm_num

/-- C1 counterexample: `cexPowerMatrix` is a valid (non-empty,
non-negative) mel-power matrix, yet after the trailing crop the returned
spectrogram's maximum is −10 dB, not 0 dB: the crop removed the only
peak-power column. -/
theorem create_mel_spectrogram_max_cex :
    (cexPowerMatrix.flatten ≠ [] ∧ ∀ x ∈ cexPowerMatrix.flatten, 0 ≤ x) ∧
    matMaxR (create_mel_spectrogram cexPowerMatrix) = -10 ∧
    matMaxR (create_mel_spectrogram cexPowerMatrix) ≠ 0 := by
  have hval : matMaxR (create_mel_spectrogram cexPowerMatrix) = -10 := by
    unfold create_mel_spectrogram
    rw [cex_db_matrix, cex_crop, cex_cropped_max]
  refine ⟨⟨?_, ?_⟩, hval, by rw [hval]; norm_num⟩
  · rw [show cexPowerMatrix.flatten =
      (1 : ℝ) :: ([(0 : ℝ), 0, 0, 0, 0, 10] ++
        (List.replicate 1000 [(1 : ℝ), 0, 0, 0, 0, 0, 0]).flatten) from rfl]
    exact List.cons_ne_nil _ _
  · intro x hx
    unfold cexPowerMatrix at hx
    rw [List.flatten_cons, List.mem_append] at hx
    rcases hx with hx | hx
    · simp only [List.mem_cons, List.not_mem_nil, or_false] at hx
      rcases hx with rfl | rfl | rfl | rfl | rfl | rfl | rfl <;> norm_num
    · rw [List.mem_flatten] at hx
      obtain ⟨l, hl, hxl⟩ := hx
      rw [List.mem_replicate] at hl
      rw [hl.2] at hxl
      simp only [List.mem_cons, List.not_mem_nil, or_false] at hxl
      rcases hxl with rfl | rfl | rfl | rfl | rfl | rfl | rfl <;> norm_num

/-- C3: whenever some short-time-energy frame (frame length 1024, hop 512)
exceeds 3% of the maximum frame energy, `load_and_preprocess_audio` crops
the waveform (before final normalisation) to exactly the Python slice
`y[max(0, first*512 - 1024) : min(len(y), (last+1)*512 + 1024)]` — one
frame length of padding on each side of the active span, clamped to the
valid sample range. -/
theorem energyCrop_active_span (y : List ℝ) (a b : ℕ)
    (h1 : (activeFrames y).head? = some a) (h2 : (activeFrames y).getLast? = some b) :
    energyCrop y = (y.take (min y.length ((b + 1) * 512 + 1024))).drop (a * 512 - 1024) := by
  unfold energyCrop
  rw [h1, h2]

/-- Concrete evaluation of the active-frame detector on a constant
waveform of 2048 unit samples: frames 0-2 have RMS 1, frame 3 (512 real
samples) has RMS `√(1/2)`, frame 4 is empty; all but the last exceed 3% of
the maximum. -/
theorem activeFrames_replicate :
    activeFrames (List.replicate 2048 (1 : ℝ)) = [0, 1, 2, 3] := by
  have hy : (List.replicate 2048 (1 : ℝ)).length = 2048 := by simp
  have h0 : frameRms 1024 512 (List.replicate 2048 (1 : ℝ)) 0 = 1 := by
    unfold frameRms
    rw [List.drop_replicate, List.take_replicate, List.map_replicate]
    norm_num [List.sum_replicate]
  have h1 : frameRms 1024 512 (List.replicate 2048 (1 : ℝ)) 1 = 1 := by
    unfold frameRms
    rw [List.drop_replicate, List.take_replicate, List.map_replicate]
    norm_num [List.sum_replicate]
  have h2 : frameRms 1024 512 (List.replicate 2048 (1 : ℝ)) 2 = 1 := by
    unfold frameRms
    rw [List.drop_replicate, List.take_replicate, List.map_replicate]
    norm_num [List.sum_replicate]
  have h3 : frameRms 1024 512 (List.replicate 2048 (1 : ℝ)) 3 = Real.sqrt (1/2) := by
    unfold frameRms
    rw [List.drop_replicate, List.take_replicate, List.map_replicate]
    norm_num [List.sum_replicate]
  have h4 : frameRms 1024 512 (List.replicate 2048 (1 : ℝ)) 4 = 0 := by
    unfold frameRms
    rw [List.drop_replicate, List.take_replicate, List.map_replicate]
    norm_num [List.sum_replicate]
  have henv : energyEnvelope 1024 512 (List.replicate 2048 (1 : ℝ))
      = [1, 1, 1, Real.sqrt (1/2), 0] := by
    unfold energyEnvelope
    rw [hy]
    rw [show (2048 / 512 + 1 : ℕ) = 5 from rfl]
    rw [show List.range 5 = [0, 1, 2, 3, 4] from rfl]
    simp only [List.map_cons, List.map_nil, h0, h1, h2, h3, h4]
  have hmax : listMaxR [1, 1, 1, Real.sqrt (1/2), (0 : ℝ)] = 1 := by
    apply listMaxR_eq_of
    · norm_num
    · intro x hx
      simp only [List.mem_cons, List.not_mem_nil, or_false] at hx
      rcases hx with rfl | rfl | rfl | rfl | rfl
      · norm_num
      · norm_num
      · norm_num
      · exact Real.sqrt_le_one.mpr (by norm_num)
      · norm_num
  have hs : Real.sqrt (1/2) > 3/100 * 1 := by
    rw [mul_one]
    exact (Real.lt_sqrt (by norm_num)).mpr (by norm_num)
  unfold activeFrames
  rw [hy]
  rw [show (2048 / 512 + 1 : ℕ) = 5 from rfl]
  rw [show List.range 5 = [0, 1, 2, 3, 4] from rfl]
  simp only [henv, hmax]
  simp only [List.filter_cons, List.filter_nil, h0, h1, h2, h3, h4,
    decide_eq_true (show (1 : ℝ) > 3/100 * 1 by norm_num),
    decide_eq_true hs,
    decide_eq_false (show ¬((0 : ℝ) > 3/100 * 1) by norm_num)]
  simp

/-- Witness for C3 on the constant 2048-sample waveform: active frames
0-3, so the crop keeps `y[max(0, 0*512-1024) : min(2048, 4*512+1024)]` —
here the whole waveform. -/
theorem energyCrop_active_span_witness :
    ((activeFrames (List.replicate 2048 (1 : ℝ))).head? = some 0 ∧
      (activeFrames (List.replicate 2048 (1 : ℝ))).getLast? = some 3) ∧
    energyCrop (List.replicate 2048 (1 : ℝ)) =
      ((List.replicate 2048 (1 : ℝ)).take
        (min (List.replicate 2048 (1 : ℝ)).length ((3 + 1) * 512 + 1024))).drop
        (0 * 512 - 1024) :=
  ⟨⟨by rw [activeFrames_replicate]; rfl, by rw [activeFrames_replicate]; rfl⟩,
    energyCrop_active_span (List.replicate 2048 (1 : ℝ)) 0 3
      (by rw [activeFrames_replicate]; rfl) (by rw [activeFrames_replicate]; rfl)⟩

end PDDetect
